import Mathlib

/-!
Shallow embedding of the gitlab-todo dashboard (src/main.rs) and proofs about
its aggregation, filtering, scoring, sorting and formatting logic.

Modelling conventions:
- Rust usize ids become a structure around Nat; machine overflow never occurs
  in the modelled code paths except the usize subtraction in cell, which is
  modelled by an Option result (none stands for the arithmetic-underflow panic).
- chrono DateTime values are modelled by their timestamp in seconds (Int);
  chrono Duration.num_days is i64 division by 86400, which truncates toward
  zero, hence Int.div.
- HashMap<Id, MergeRequest> is modelled by an association list together with a
  key-respecting insert (replace on existing key), which is what collecting an
  iterator of pairs into a HashMap does.
- Fallible API calls are modelled by Except String results; Rust ? propagation
  becomes short-circuiting over Except, and collect::<Result<Vec<_>>> becomes
  an explicit sequence function.
- Rust strings in cell are modelled as lists of chars; the source's
  body.len() is the UTF-8 byte length of the string, modelled by summing
  Char.utf8Size over the chars, while the truncation itself keeps a prefix
  of the chars() iterator.
-/

namespace GitlabTodo

structure Id where
  val : Nat
deriving DecidableEq

structure User where
  id : Id
  name : String
  username : String
deriving DecidableEq

structure Milestone where
  title : String
deriving DecidableEq

structure References where
  full : String
deriving DecidableEq

structure MergeRequest where
  id : Id
  iid : Id
  project_id : Id
  title : String
  milestone : Option Milestone
  draft : Bool
  has_conflicts : Bool
  references : References
  target_branch : String
  web_url : String
  updated_at : Int
  author : User
  assignees : List User
  reviewers : List User
deriving DecidableEq

structure PushData where
  ref_ : Option String
deriving DecidableEq

structure RecentPush where
  project_id : Id
  push_data : PushData
deriving DecidableEq

structure Approver where
  user : User
deriving DecidableEq

structure ApprovalInfo where
  approvals_left : Nat
  approved_by : List Approver
deriving DecidableEq

/-- Embeds targets_main_branch from main.rs: membership of the target branch
in the two-element array of main-line branch names. -/
def targets_main_branch (mr : MergeRequest) : Bool :=
  ["master", "main"].contains mr.target_branch

/-- Embeds priority from main.rs: the additive score of an MR for a viewer,
each if statement of the source becoming one conditional delta. -/
def priority (mr : MergeRequest) (approval_info : ApprovalInfo) (user : User) : Int :=
  let approved := approval_info.approved_by.any (fun a => a.user.id == user.id)
  let prio0 : Int := 0
  let prio1 :=
    if mr.assignees.any (fun assignee => assignee.id == user.id) && !mr.draft then
      prio0 + 5
    else prio0
  let prio2 := if targets_main_branch mr then prio1 + 2 else prio1
  let prio3 := if mr.author.id == user.id then prio2 + 1 else prio2
  let prio4 :=
    if mr.reviewers.any (fun reviewer => reviewer.id == user.id) then prio3 + 1 else prio3
  let prio5 := if mr.has_conflicts then prio4 - 1 else prio4
  let prio6 := if approved then prio5 - 1 else prio5
  let prio7 := if approval_info.approvals_left < 1 then prio6 - 2 else prio6
  let prio8 :=
    if mr.assignees.all (fun assignee => assignee.username == "nomadic-margebot") then
      prio7 - 5
    else prio7
  prio8

/-- Embeds chrono Duration.num_days applied to a duration in seconds:
i64 division truncates toward zero, which is Int.div. -/
def num_days (duration_secs : Int) : Int :=
  Int.tdiv duration_secs 86400

/-- Embeds the filter step of get_mrs_to_review (main.rs lines 74-79):
keep the MRs whose update age in truncated whole days is at most 14. -/
def reviewing_filter (now : Int) (mrs : List MergeRequest) : List MergeRequest :=
  mrs.filter (fun mr => decide (num_days (now - mr.updated_at) ≤ 14))

/-- HashMap insert on the association-list model: replace the value when the
key is present, otherwise add the pair. -/
def hashInsert (m : List (Id × MergeRequest)) (k : Id) (v : MergeRequest) :
    List (Id × MergeRequest) :=
  if m.any (fun q => q.1 == k) then
    m.map (fun q => if q.1 == k then (k, v) else q)
  else
    (k, v) :: m

/-- Collecting an iterator of (id, mr) pairs into a HashMap: fold the pairs
through hashInsert, so a later pair with the same id overwrites an earlier
one, exactly as HashMap collect does. -/
def collectPairs (l : List (Id × MergeRequest)) : List (Id × MergeRequest) :=
  l.foldl (fun m p => hashInsert m p.1 p.2) []

/-- Embeds the merging step of get_related_mrs (main.rs lines 131-136): the
branch-derived map chained with the reviewing, assigned and authored maps,
collected into one HashMap keyed by MR id. -/
def get_related_mrs
    (recent_mrs to_review assigned authored : List (Id × MergeRequest)) :
    List (Id × MergeRequest) :=
  collectPairs (recent_mrs ++ to_review ++ assigned ++ authored)

/-- The id set of an association-list map: its list of keys. -/
def keys (m : List (Id × MergeRequest)) : List Id :=
  m.map Prod.fst

/-- Embeds collect::<Result<Vec<_>>>: sequence a list of fallible results,
short-circuiting on the first error. -/
def collectResults {α : Type} : List (Except String α) → Except String (List α)
  | [] => Except.ok []
  | Except.error e :: _ => Except.error e
  | Except.ok a :: rest =>
    match collectResults rest with
    | Except.error e => Except.error e
    | Except.ok others => Except.ok (a :: others)

/-- Embeds the branch-derived source of get_related_mrs (main.rs lines
112-126): each recent push with a branch reference produces one fallible
branch lookup (a push whose push_data.ref_ is none is dropped by filterMap and
produces no lookup), the results are sequenced, flattened and collected into a
map keyed by MR id. The lookup function stands for MergeRequest::get_by_branch. -/
def branch_derived_mrs
    (lookup : Id → String → Except String (List (Id × MergeRequest)))
    (pushes : List RecentPush) : Except String (List (Id × MergeRequest)) :=
  match collectResults (pushes.filterMap
      (fun recent_push =>
        recent_push.push_data.ref_.map
          (fun branch => lookup recent_push.project_id branch))) with
  | Except.error e => Except.error e
  | Except.ok mrs_lists => Except.ok (collectPairs mrs_lists.flatten)

/-- Embeds the sort step of print_all (main.rs lines 306-310): a stable sort
of the (mr, approval) pairs by the reversed comparison of their priorities,
so higher priority comes first. -/
def sortPairs (user : User) (l : List (MergeRequest × ApprovalInfo)) :
    List (MergeRequest × ApprovalInfo) :=
  List.insertionSort
    (fun lhs rhs => priority rhs.1 rhs.2 user ≤ priority lhs.1 lhs.2 user) l

/-- One observable terminal action of a tick: the screen clear or one printed
row (identified by the MR it renders). -/
inductive RenderStep where
  | clearScreen : RenderStep
  | row : MergeRequest → RenderStep
deriving DecidableEq

/-- Embeds print_all (main.rs lines 299-386) at the level of observable
terminal output: fetch approval info for every aggregated MR (the fetch
function stands for ApprovalInfo::get and the ? propagation on the collected
Result), and only when every fetch succeeded emit the screen clear followed by
the sorted rows. An error produces no terminal action at all, matching the
source, where Clear and the row prints happen after the collect with ?. -/
def print_all (fetch : MergeRequest → Except String ApprovalInfo) (user : User)
    (all_mrs : List MergeRequest) : Except String (List RenderStep) :=
  match collectResults
      (all_mrs.map (fun mr => Except.map (fun ai => (mr, ai)) (fetch mr))) with
  | Except.error e => Except.error e
  | Except.ok pairs =>
    Except.ok
      (RenderStep.clearScreen ::
        (sortPairs user pairs).map (fun p => RenderStep.row p.1))

/-- The UTF-8 byte length of a body given as its list of chars: what Rust's
str len returns on the corresponding string. -/
def byteLen (body : List Char) : Nat :=
  (body.map Char.utf8Size).sum

/-- Embeds cell (main.rs lines 284-297) over lists of chars: the over-long
guard compares the UTF-8 byte length of the body (str len) with the width,
truncation keeps the first width - 3 chars of a chars() iterator followed by
an ellipsis, and padding appends width minus byte-length spaces. The usize
subtraction width - 3 underflows when the byte length exceeds a width below
3; that panic is modelled by none. -/
def cell (width : Nat) (body : List Char) : Option (List Char) :=
  if byteLen body > width then
    if width < 3 then
      none
    else
      some (body.take (width - 3) ++ ['.', '.', '.'])
  else
    some (body ++ List.replicate (width - byteLen body) ' ')

/-! Concrete inputs used by witnesses and counterexamples. -/

/-- A viewer. -/
def user0 : User := { id := { val := 1 }, name := "alice", username := "alice" }

/-- Another user, distinct from the viewer. -/
def bob : User := { id := { val := 2 }, name := "bob", username := "bob" }

/-- An approval state that triggers no scoring rule: one approval still
required, nobody has approved. -/
def aiQuiet : ApprovalInfo := { approvals_left := 1, approved_by := [] }

/-- An approval state with zero approvals left and nobody in approved_by. -/
def aiDone : ApprovalInfo := { approvals_left := 0, approved_by := [] }

/-- An MR scoring 5 for user0: user0 is an assignee, not a draft, and no
other rule fires. -/
def mrP5 : MergeRequest :=
  { id := { val := 10 }, iid := { val := 1 }, project_id := { val := 100 }
    title := "five", milestone := none, draft := false, has_conflicts := false
    references := { full := "g/p!1" }, target_branch := "dev"
    web_url := "u1", updated_at := 0, author := bob
    assignees := [user0], reviewers := [] }

/-- An MR scoring 2 for user0: it targets main and no other rule fires. -/
def mrP2 : MergeRequest :=
  { id := { val := 11 }, iid := { val := 2 }, project_id := { val := 100 }
    title := "two", milestone := none, draft := false, has_conflicts := false
    references := { full := "g/p!2" }, target_branch := "main"
    web_url := "u2", updated_at := 0, author := bob
    assignees := [bob], reviewers := [] }

/-- An MR scoring minus 1 for user0: it has conflicts and no other rule
fires. -/
def mrM1 : MergeRequest :=
  { id := { val := 12 }, iid := { val := 3 }, project_id := { val := 100 }
    title := "minus", milestone := none, draft := false, has_conflicts := true
    references := { full := "g/p!3" }, target_branch := "dev"
    web_url := "u3", updated_at := 0, author := bob
    assignees := [bob], reviewers := [] }

/-- The scoring-example MR for user0: user0 is assignee and author, not a
draft, targets main, has conflicts; reviewers empty. -/
def mrC2 : MergeRequest :=
  { id := { val := 13 }, iid := { val := 4 }, project_id := { val := 100 }
    title := "example", milestone := none, draft := false, has_conflicts := true
    references := { full := "g/p!4" }, target_branch := "main"
    web_url := "u4", updated_at := 0, author := user0
    assignees := [user0], reviewers := [] }

/-- An MR with an empty assignee list and no other scoring rule firing. -/
def mrC5 : MergeRequest :=
  { id := { val := 14 }, iid := { val := 5 }, project_id := { val := 100 }
    title := "noassign", milestone := none, draft := false, has_conflicts := false
    references := { full := "g/p!5" }, target_branch := "dev"
    web_url := "u5", updated_at := 0, author := bob
    assignees := [], reviewers := [] }

/-- An MR last updated at timestamp 0, used against the age filter. -/
def mrOld : MergeRequest :=
  { id := { val := 15 }, iid := { val := 6 }, project_id := { val := 100 }
    title := "old", milestone := none, draft := false, has_conflicts := false
    references := { full := "g/p!6" }, target_branch := "dev"
    web_url := "u6", updated_at := 0, author := bob
    assignees := [bob], reviewers := [] }

/-- A recent push carrying no branch reference. -/
def pushNoBranch : RecentPush :=
  { project_id := { val := 100 }, push_data := { ref_ := none } }

/-- A recent push to branch b on project 100. -/
def pushWithBranch : RecentPush :=
  { project_id := { val := 100 }, push_data := { ref_ := some "b" } }

/-- A 50-char title body. -/
def title50 : List Char := List.replicate 50 'a'

/-- An approval fetch that always fails. -/
def fetchFail : MergeRequest → Except String ApprovalInfo :=
  fun _ => Except.error "boom"

/-! Helper lemmas about the association-list HashMap model. -/

theorem any_key_iff (m : List (Id × MergeRequest)) (k : Id) :
    m.any (fun q => q.1 == k) = true ↔ k ∈ keys m := by
  simp [keys, List.any_eq_true, List.mem_map, beq_iff_eq]

theorem keys_hashInsert (m : List (Id × MergeRequest)) (k : Id) (v : MergeRequest) :
    keys (hashInsert m k v) =
      if m.any (fun q => q.1 == k) = true then keys m else k :: keys m := by
  unfold hashInsert keys
  by_cases h : m.any (fun q => q.1 == k) = true
  · rw [if_pos h, if_pos h, List.map_map]
    apply List.map_congr_left
    intro q _
    by_cases hq : q.1 = k
    · simp [hq]
    · simp [hq]
  · rw [if_neg h, if_neg h, List.map_cons]

theorem mem_keys_hashInsert (m : List (Id × MergeRequest)) (k : Id) (v : MergeRequest)
    (i : Id) : i ∈ keys (hashInsert m k v) ↔ i = k ∨ i ∈ keys m := by
  rw [keys_hashInsert]
  by_cases h : m.any (fun q => q.1 == k) = true
  · rw [if_pos h]
    have hk := (any_key_iff m k).mp h
    constructor
    · exact Or.inr
    · rintro (rfl | hi)
      · exact hk
      · exact hi
  · rw [if_neg h]
    simp [List.mem_cons]

theorem nodup_keys_hashInsert (m : List (Id × MergeRequest)) (k : Id) (v : MergeRequest)
    (h : (keys m).Nodup) : (keys (hashInsert m k v)).Nodup := by
  rw [keys_hashInsert]
  by_cases hc : m.any (fun q => q.1 == k) = true
  · rw [if_pos hc]
    exact h
  · rw [if_neg hc]
    rw [List.nodup_cons]
    exact ⟨fun hk => hc ((any_key_iff m k).mpr hk), h⟩

theorem collect_foldl_spec (l : List (Id × MergeRequest)) :
    ∀ m : List (Id × MergeRequest),
      (∀ i, i ∈ keys (l.foldl (fun acc p => hashInsert acc p.1 p.2) m) ↔
        i ∈ keys m ∨ i ∈ l.map Prod.fst) ∧
      ((keys m).Nodup →
        (keys (l.foldl (fun acc p => hashInsert acc p.1 p.2) m)).Nodup) := by
  induction l with
  | nil =>
    intro m
    simp
  | cons p l ih =>
    intro m
    constructor
    · intro i
      rw [List.foldl_cons, (ih (hashInsert m p.1 p.2)).1 i, mem_keys_hashInsert]
      simp only [List.map_cons, List.mem_cons]
      tauto
    · intro hm
      rw [List.foldl_cons]
      exact (ih _).2 (nodup_keys_hashInsert _ _ _ hm)

theorem mem_keys_collectPairs (l : List (Id × MergeRequest)) (i : Id) :
    i ∈ keys (collectPairs l) ↔ i ∈ l.map Prod.fst := by
  unfold collectPairs
  rw [(collect_foldl_spec l []).1 i]
  simp [keys]

theorem nodup_keys_collectPairs (l : List (Id × MergeRequest)) :
    (keys (collectPairs l)).Nodup := by
  unfold collectPairs
  exact (collect_foldl_spec l []).2 (by simp [keys])

/-- C1: the id set of the aggregated map built by get_related_mrs is exactly
the union of the id sets of the four sources (reviewing, assigned, authored,
branch-derived), and every id appears at most once in the result (the key
list has no duplicates), however many sources returned it. -/
theorem aggregate_union_dedup
    (reviewing assigned authored branch_derived : List (Id × MergeRequest)) :
    (∀ i, i ∈ keys (get_related_mrs branch_derived reviewing assigned authored) ↔
      i ∈ keys reviewing ∨ i ∈ keys assigned ∨ i ∈ keys authored ∨
        i ∈ keys branch_derived) ∧
    (keys (get_related_mrs branch_derived reviewing assigned authored)).Nodup := by
  unfold get_related_mrs
  constructor
  · intro i
    rw [mem_keys_collectPairs]
    simp only [keys, List.map_append, List.mem_append]
    tauto
  · exact nodup_keys_collectPairs _

/-! The age filter of the reviewing source. -/

theorem num_days_le_14_iff (d : Int) : num_days d ≤ 14 ↔ d < 15 * 86400 := by
  unfold num_days
  cases d with
  | ofNat n =>
    have h0 : Int.tdiv (Int.ofNat n) 86400 = Int.ofNat (n / 86400) := rfl
    have h1 : n / 86400 ≤ 14 ↔ n < 1296000 := by
      rw [← Nat.lt_succ_iff]
      exact Nat.div_lt_iff_lt_mul (by norm_num)
    rw [h0, Int.ofNat_eq_coe, Int.ofNat_eq_coe]
    constructor
    · intro h
      have h2 : n / 86400 ≤ 14 := by exact_mod_cast h
      have h4 := h1.mp h2
      omega
    · intro h
      have hn : n < 1296000 := by omega
      have h3 := h1.mpr hn
      exact_mod_cast h3
  | negSucc n =>
    have h0 : Int.tdiv (Int.negSucc n) 86400 = -Int.ofNat ((n + 1) / 86400) := rfl
    rw [h0, Int.ofNat_eq_coe]
    constructor
    · intro _
      have h2 : Int.negSucc n < 0 := Int.negSucc_lt_zero n
      omega
    · intro _
      have h2 : (0 : Int) ≤ ((n + 1) / 86400 : Nat) := Int.ofNat_nonneg _
      omega

/-- C3 counterexample: an MR last updated 14 days and 1 second before now is
kept by the reviewing filter although its update lies more than 14 days in
the past, so the filter does not keep exactly the MRs updated within the last
14 days. -/
theorem review_age_filter_counterexample :
    reviewing_filter 1209601 [mrOld] = [mrOld] ∧
      (1209601 : Int) - mrOld.updated_at > 14 * 86400 := by
  constructor
  · decide
  · decide

/-- C3 amended: the reviewing filter keeps exactly the MRs whose update age,
truncated to whole days, is at most 14, that is, the MRs updated strictly
less than 15 days before now; in particular now minus 15 days is excluded and
now minus 14 days is included, but an update older than 14 days by less than
a day is still included. -/
theorem review_age_filter_amended (now : Int) (mrs : List MergeRequest)
    (mr : MergeRequest) :
    mr ∈ reviewing_filter now mrs ↔ mr ∈ mrs ∧ now - mr.updated_at < 15 * 86400 := by
  unfold reviewing_filter
  rw [List.mem_filter]
  simp [num_days_le_14_iff]

/-! The priority scorer. -/

/-- C2: when the viewer is an assignee of a non-draft MR targeting main, is
the author, the MR has conflicts, zero approvals remain required, and no
other rule fires (not a reviewer, not in approved_by, not every assignee is
the merge bot), the score is 5 + 2 + 1 - 1 - 2 = 5. -/
theorem score_example_five (mr : MergeRequest) (approval_info : ApprovalInfo)
    (user : User)
    (h1 : mr.assignees.any (fun assignee => assignee.id == user.id) = true)
    (h2 : mr.draft = false)
    (h3 : mr.target_branch = "main")
    (h4 : mr.author.id = user.id)
    (h5 : mr.has_conflicts = true)
    (h6 : approval_info.approvals_left = 0)
    (h7 : mr.reviewers.any (fun reviewer => reviewer.id == user.id) = false)
    (h8 : approval_info.approved_by.any (fun a => a.user.id == user.id) = false)
    (h9 : mr.assignees.all (fun assignee => assignee.username == "nomadic-margebot")
      = false) :
    priority mr approval_info user = 5 := by
  unfold priority targets_main_branch
  rw [h1, h2, h3, h5, h6, h7, h8, h9]
  simp [h4]

/-- Witness for C2 at a concrete MR, approval info and viewer. -/
theorem score_example_five_witness :
    mrC2.assignees.any (fun assignee => assignee.id == user0.id) = true ∧
    mrC2.draft = false ∧
    mrC2.target_branch = "main" ∧
    mrC2.author.id = user0.id ∧
    mrC2.has_conflicts = true ∧
    aiDone.approvals_left = 0 ∧
    mrC2.reviewers.any (fun reviewer => reviewer.id == user0.id) = false ∧
    aiDone.approved_by.any (fun a => a.user.id == user0.id) = false ∧
    mrC2.assignees.all (fun assignee => assignee.username == "nomadic-margebot")
      = false ∧
    priority mrC2 aiDone user0 = 5 :=
  ⟨by decide, rfl, rfl, rfl, rfl, rfl, by decide, by decide, by decide,
    score_example_five mrC2 aiDone user0 (by decide) rfl rfl rfl rfl rfl
      (by decide) (by decide) (by decide)⟩

/-- C5: an MR with an empty assignee list takes the minus 5 merge-bot penalty
because the all-assignees-are-the-bot condition is vacuously true; with no
other rule firing the score is minus 5 rather than 0. -/
theorem empty_assignees_bot_penalty (mr : MergeRequest) (approval_info : ApprovalInfo)
    (user : User)
    (h1 : mr.assignees = [])
    (h2 : targets_main_branch mr = false)
    (h3 : mr.author.id ≠ user.id)
    (h4 : mr.reviewers.any (fun reviewer => reviewer.id == user.id) = false)
    (h5 : mr.has_conflicts = false)
    (h6 : approval_info.approved_by.any (fun a => a.user.id == user.id) = false)
    (h7 : 1 ≤ approval_info.approvals_left) :
    priority mr approval_info user = -5 := by
  unfold priority
  rw [h1, h2, h4, h5, h6]
  have h8 : ¬ approval_info.approvals_left < 1 := by omega
  have h9 : (mr.author.id == user.id) = false := by
    simp [beq_iff_eq, h3]
  rw [h9]
  simp [h8]

/-- Witness for C5 at a concrete assignee-less MR. -/
theorem empty_assignees_bot_penalty_witness :
    mrC5.assignees = [] ∧
    targets_main_branch mrC5 = false ∧
    mrC5.author.id ≠ user0.id ∧
    mrC5.reviewers.any (fun reviewer => reviewer.id == user0.id) = false ∧
    mrC5.has_conflicts = false ∧
    aiQuiet.approved_by.any (fun a => a.user.id == user0.id) = false ∧
    1 ≤ aiQuiet.approvals_left ∧
    priority mrC5 aiQuiet user0 = -5 :=
  ⟨rfl, by decide, by decide, by decide, rfl, by decide, by decide,
    empty_assignees_bot_penalty mrC5 aiQuiet user0 rfl (by decide) (by decide)
      (by decide) rfl (by decide) (by decide)⟩

/-- C9: the scorer is a pure, total, deterministic function of its three
arguments: equal inputs give equal scores. -/
theorem priority_deterministic (mr1 mr2 : MergeRequest) (ai1 ai2 : ApprovalInfo)
    (u1 u2 : User) (hmr : mr1 = mr2) (hai : ai1 = ai2) (hu : u1 = u2) :
    priority mr1 ai1 u1 = priority mr2 ai2 u2 := by
  subst hmr
  subst hai
  subst hu
  rfl

/-- Witness for C9 at a concrete input. -/
theorem priority_deterministic_witness :
    mrP5 = mrP5 ∧ aiQuiet = aiQuiet ∧ user0 = user0 ∧
      priority mrP5 aiQuiet user0 = priority mrP5 aiQuiet user0 :=
  ⟨rfl, rfl, rfl,
    priority_deterministic mrP5 mrP5 aiQuiet aiQuiet user0 user0 rfl rfl rfl⟩

/-! Cell formatting helpers shared by the truncation and totality results. -/

theorem cell_of_long (width : Nat) (body : List Char) (h3 : 3 ≤ width)
    (hlen : byteLen body > width) :
    cell width body = some (body.take (width - 3) ++ ['.', '.', '.']) := by
  unfold cell
  rw [if_pos hlen, if_neg (by omega)]

theorem cell_of_long_ascii_length (width : Nat) (body : List Char) (h3 : 3 ≤ width)
    (hlen : byteLen body > width) (hascii : byteLen body = body.length) :
    (body.take (width - 3) ++ ['.', '.', '.']).length = width := by
  simp only [List.length_append, List.length_take, List.length_cons,
    List.length_nil]
  omega

theorem cell_of_fit (width : Nat) (body : List Char) (hle : byteLen body ≤ width) :
    cell width body = some (body ++ List.replicate (width - byteLen body) ' ') := by
  unfold cell
  rw [if_neg (by omega)]

theorem cell_of_fit_ascii_length (width : Nat) (body : List Char)
    (hle : byteLen body ≤ width) (hascii : byteLen body = body.length) :
    (body ++ List.replicate (width - byteLen body) ' ').length = width := by
  simp only [List.length_append, List.length_replicate]
  omega

/-- C8 counterexample: a 3-byte body in a width-2 column makes the usize
subtraction width - 3 underflow (modelled by none), so there is no output at
all; and a 2-char body of double-byte chars in a width-4 column is returned
with no padding at all (its byte length already fills the width), so the
output has 2 chars, not 4: shorter bodies are not padded to exactly the
width in chars. -/
theorem cell_truncation_counterexample :
    ((['a', 'b', 'c'] : List Char).length > 2 ∧ cell 2 ['a', 'b', 'c'] = none) ∧
    ((['é', 'é'] : List Char).length ≤ 4 ∧ cell 4 ['é', 'é'] = some ['é', 'é'] ∧
      ((['é', 'é'] : List Char).length = 4 → False)) := by
  refine ⟨⟨by decide, rfl⟩, by decide, ?_, by decide⟩
  rfl

/-- C8 amended: the over-long guard and the padding count follow the UTF-8
byte length of the body, as in the source. Provided the width is at least 3,
a body whose byte length exceeds the width is truncated to its first
width - 3 chars followed by an ellipsis, and a body whose byte length fits
is padded with width minus byte-length trailing spaces; for an ASCII body
(byte length equal to char count, as in the length-50 title example) the
output has exactly width chars in both cases. -/
theorem cell_formatting_amended (width : Nat) (body : List Char) :
    (3 ≤ width → byteLen body > width →
      cell width body = some (body.take (width - 3) ++ ['.', '.', '.']) ∧
      (byteLen body = body.length →
        (body.take (width - 3) ++ ['.', '.', '.']).length = width)) ∧
    (byteLen body ≤ width →
      cell width body = some (body ++ List.replicate (width - byteLen body) ' ') ∧
      (byteLen body = body.length →
        (body ++ List.replicate (width - byteLen body) ' ').length = width)) :=
  ⟨fun h3 hlen => ⟨cell_of_long width body h3 hlen,
     fun hascii => cell_of_long_ascii_length width body h3 hlen hascii⟩,
   fun hle => ⟨cell_of_fit width body hle,
     fun hascii => cell_of_fit_ascii_length width body hle hascii⟩⟩

/-- Witness for C8 amended: a 50-char ASCII title in a width-10 column yields
the 10-char truncation ending in the ellipsis, and a 2-char ASCII body in a
width-5 column is padded to exactly 5 chars. -/
theorem cell_formatting_amended_witness :
    (3 ≤ 10 ∧ byteLen title50 > 10 ∧ byteLen title50 = title50.length ∧
      cell 10 title50 = some (title50.take 7 ++ ['.', '.', '.']) ∧
      (title50.take 7 ++ ['.', '.', '.']).length = 10) ∧
    (byteLen ['h', 'i'] ≤ 5 ∧
      byteLen ['h', 'i'] = (['h', 'i'] : List Char).length ∧
      cell 5 ['h', 'i'] = some (['h', 'i'] ++ List.replicate 3 ' ') ∧
      (['h', 'i'] ++ List.replicate 3 ' ').length = 5) := by
  constructor
  · have h := (cell_formatting_amended 10 title50).1 (by decide) (by decide)
    exact ⟨by decide, by decide, by decide, h.1, h.2 (by decide)⟩
  · have h := (cell_formatting_amended 5 ['h', 'i']).2 (by decide)
    exact ⟨by decide, by decide, h.1, h.2 (by decide)⟩

/-- C10 counterexample: with width 5, which satisfies the width-at-least-3
precondition, the two-char body of double-byte chars takes the padding branch
and receives only width minus byte-length spaces, so the output has 3 chars,
not 5: under the precondition the result does not always have exactly width
chars. -/
theorem cell_totality_counterexample :
    (3 : Nat) ≤ 5 ∧ cell 5 ['é', 'é'] = some ['é', 'é', ' '] ∧
      ((['é', 'é', ' '] : List Char).length = 5 → False) := by
  refine ⟨by decide, ?_, by decide⟩
  rfl

/-- C10 amended: cell is total exactly under the precondition width at least
3 or byte length at most width: a body whose UTF-8 byte length exceeds a
width below 3 hits the underflowing usize subtraction (none, a panic in the
source); under the precondition the error branch is unreachable and some
output exists, and when additionally the body is ASCII (byte length equal to
char count) the output has exactly width chars. -/
theorem cell_totality (width : Nat) (body : List Char) :
    (byteLen body > width → width < 3 → cell width body = none) ∧
    ((3 ≤ width ∨ byteLen body ≤ width) → ∃ s, cell width body = some s) ∧
    (3 ≤ width → byteLen body = body.length →
      ∃ s, cell width body = some s ∧ s.length = width) := by
  refine ⟨?_, ?_, ?_⟩
  · intro hlen h3
    unfold cell
    rw [if_pos hlen, if_pos h3]
  · intro h
    by_cases hlen : byteLen body > width
    · rcases h with h3 | hfit
      · exact ⟨_, cell_of_long width body h3 hlen⟩
      · exact absurd hlen (by omega)
    · exact ⟨_, cell_of_fit width body (by omega)⟩
  · intro h3 hascii
    by_cases hlen : byteLen body > width
    · exact ⟨_, cell_of_long width body h3 hlen,
        cell_of_long_ascii_length width body h3 hlen hascii⟩
    · exact ⟨_, cell_of_fit width body (by omega),
        cell_of_fit_ascii_length width body (by omega) hascii⟩

/-- Witness for C10 amended: a 3-byte body in a width-2 column panics (none),
and a width-4 column with a fitting ASCII body gives an output of exactly 4
chars. -/
theorem cell_totality_witness :
    (byteLen ['x', 'y', 'z'] > 2 ∧ (2 : Nat) < 3 ∧ cell 2 ['x', 'y', 'z'] = none) ∧
    ((3 ≤ 4 ∨ byteLen ['o'] ≤ 4) ∧ ∃ s, cell 4 ['o'] = some s) ∧
    ((3 : Nat) ≤ 4 ∧ byteLen ['o'] = (['o'] : List Char).length ∧
      ∃ s, cell 4 ['o'] = some s ∧ s.length = 4) := by
  refine ⟨⟨by decide, by decide, ?_⟩, ⟨Or.inl (by decide), ?_⟩, by decide, by decide, ?_⟩
  · exact (cell_totality 2 ['x', 'y', 'z']).1 (by decide) (by decide)
  · exact (cell_totality 4 ['o']).2.1 (Or.inl (by decide))
  · exact (cell_totality 4 ['o']).2.2 (by decide) (by decide)

/-! Error propagation of the approval-enrichment phase. -/

theorem collectResults_error_of_mem {β : Type} (f : MergeRequest → Except String β)
    (mrs : List MergeRequest) (mr : MergeRequest) (e : String)
    (hmem : mr ∈ mrs) (herr : f mr = Except.error e) :
    ∃ msg, collectResults (mrs.map f) = Except.error msg := by
  induction mrs with
  | nil => cases hmem
  | cons a rest ih =>
    rw [List.map_cons]
    cases hfa : f a with
    | error e2 => exact ⟨e2, by simp [collectResults]⟩
    | ok b =>
      rcases List.mem_cons.mp hmem with rfl | hmem2
      · rw [hfa] at herr
        cases herr
      · obtain ⟨msg, hmsg⟩ := ih hmem2
        exact ⟨msg, by simp [collectResults, hmsg]⟩

/-- C4: if fetching the approval info of any single MR of the aggregated set
fails, the whole tick aborts with an error and produces no terminal output at
all: print_all returns an error instead of a render-step list, so nothing is
cleared and no row is printed. -/
theorem approval_fetch_failure_aborts_tick
    (fetch : MergeRequest → Except String ApprovalInfo) (user : User)
    (all_mrs : List MergeRequest) (mr : MergeRequest) (e : String)
    (hmem : mr ∈ all_mrs) (herr : fetch mr = Except.error e) :
    ∃ msg, print_all fetch user all_mrs = Except.error msg := by
  unfold print_all
  have herr2 : (fun m => Except.map (fun ai => (m, ai)) (fetch m)) mr
      = Except.error e := by
    show Except.map (fun ai => (mr, ai)) (fetch mr) = Except.error e
    rw [herr]
    rfl
  obtain ⟨msg, hmsg⟩ := collectResults_error_of_mem
    (fun m => Except.map (fun ai => (m, ai)) (fetch m)) all_mrs mr e hmem herr2
  exact ⟨msg, by rw [hmsg]⟩

/-- Witness for C4 with a fetch function that fails on the single MR. -/
theorem approval_fetch_failure_aborts_tick_witness :
    mrP5 ∈ [mrP5] ∧ fetchFail mrP5 = Except.error "boom" ∧
      ∃ msg, print_all fetchFail user0 [mrP5] = Except.error msg :=
  ⟨List.mem_singleton.mpr rfl, rfl,
    approval_fetch_failure_aborts_tick fetchFail user0 [mrP5] mrP5 "boom"
      (List.mem_singleton.mpr rfl) rfl⟩

/-- C6: the pre-render sort places the pairs in descending score order: in
the sorted list every earlier entry scores at least as much as every later
one (so in particular any two adjacent entries do), and the concrete inputs
scoring 5, -1 and 2 come out in the order 5, 2, -1. -/
theorem sort_descending_by_score :
    (∀ (user : User) (l : List (MergeRequest × ApprovalInfo)),
      List.Pairwise
        (fun lhs rhs => priority rhs.1 rhs.2 user ≤ priority lhs.1 lhs.2 user)
        (sortPairs user l)) ∧
    (sortPairs user0 [(mrP5, aiQuiet), (mrM1, aiQuiet), (mrP2, aiQuiet)]).map
        (fun p => priority p.1 p.2 user0) = [5, 2, -1] := by
  constructor
  · intro user l
    haveI : IsTotal (MergeRequest × ApprovalInfo)
        (fun lhs rhs => priority rhs.1 rhs.2 user ≤ priority lhs.1 lhs.2 user) :=
      ⟨fun a b => le_total _ _⟩
    haveI : IsTrans (MergeRequest × ApprovalInfo)
        (fun lhs rhs => priority rhs.1 rhs.2 user ≤ priority lhs.1 lhs.2 user) :=
      ⟨fun a b c hab hbc => le_trans hbc hab⟩
    exact List.sorted_insertionSort _ l
  · decide

/-- C7: a recent push carrying no branch reference is skipped by the
branch-derived source: it triggers no branch lookup, contributes no MR, and
causes no error, so the source behaves exactly as if the push were absent. -/
theorem push_without_branch_skipped
    (lookup : Id → String → Except String (List (Id × MergeRequest)))
    (before after : List RecentPush) (p : RecentPush)
    (h : p.push_data.ref_ = none) :
    branch_derived_mrs lookup (before ++ p :: after) =
      branch_derived_mrs lookup (before ++ after) := by
  unfold branch_derived_mrs
  rw [List.filterMap_append, List.filterMap_cons, h, List.filterMap_append]
  rfl

/-- Witness for C7: dropping a branchless push between two runs leaves the
branch-derived source unchanged on a concrete input. -/
theorem push_without_branch_skipped_witness :
    pushNoBranch.push_data.ref_ = none ∧
      branch_derived_mrs (fun _ _ => Except.ok []) ([pushWithBranch] ++ pushNoBranch :: []) =
        branch_derived_mrs (fun _ _ => Except.ok []) ([pushWithBranch] ++ []) :=
  ⟨rfl, push_without_branch_skipped (fun _ _ => Except.ok []) [pushWithBranch] []
    pushNoBranch rfl⟩

end GitlabTodo
